import Mathlib

/-!
# Vault-0 core: shallow embedding and verification

A shallow embedding of the Vault-0 agent-traffic mediation appliance
(`src/src-tauri/src`), restricted to the parts the verified claims are about:

* `mcp_guard.rs` — MCP classifier, origin allowlist, SSRF check;
* `x402.rs`     — 402 payment-intent parser;
* `policy.rs`   — the `Policy` struct;
* `proxy.rs`    — the request handler `proxy_handler`, `alias_for_host`,
  `build_full_uri`, start/stop;
* `vault_store.rs` — vault create / unlock / lock / add / list / get.

Rust machine integers that matter here (`u64` amounts, `u16` status codes)
are modelled as `Nat`; no arithmetic in the modelled code can overflow a
`u64` (amounts are only compared, never added), so no modular reduction is
needed.  Fallible operations return `Except String`/`Option`; a Rust panic
is modelled as `Option.none`.  Effects (evidence pushes, upstream sends)
become explicit outputs of the handler function.  External collaborators
(the network, the wallet keychain, serde_json, the regex engine, the
clock) are passed in as an explicit environment, so every definition is
executable.
-/

namespace Vault0

/-! ## String helpers (models of the Rust std string operations used) -/

/-- Model of Rust `char::to_ascii_lowercase` / the ASCII fragment of
`str::to_lowercase`.  The source lowercases only to look for the ASCII
substrings `"mcp"`, `"localhost"`, `"127.0.0.1"`; Unicode lowercasing
agrees with ASCII lowercasing on ASCII characters and never maps a
non-ASCII character to `m`/`c`/`p`/ASCII digits, so the ASCII model is
faithful for all uses in this file. -/
def asciiLowerChar (c : Char) : Char :=
  if 'A' ≤ c ∧ c ≤ 'Z' then Char.ofNat (c.toNat + 32) else c

def asciiLower (s : String) : String :=
  String.mk (s.data.map asciiLowerChar)

/-- Model of Rust `str::eq_ignore_ascii_case`. -/
def eqIgnoreAsciiCase (a b : String) : Bool :=
  asciiLower a = asciiLower b

/-- Decidable list prefix test (`isPrefixOfList needle l`). -/
def isPrefixOfList : List Char → List Char → Bool
  | [], _ => true
  | _ :: _, [] => false
  | a :: as, b :: bs => a = b && isPrefixOfList as bs

/-- Model of Rust `str::contains(needle)` (substring containment). -/
def containsSubstrList (needle : List Char) : List Char → Bool
  | [] => isPrefixOfList needle []
  | c :: cs => isPrefixOfList needle (c :: cs) || containsSubstrList needle cs

def containsSubstr (haystack needle : String) : Bool :=
  containsSubstrList needle.data haystack.data

/-- Model of Rust `str::contains(char)`. -/
def containsChar (s : String) (c : Char) : Bool :=
  s.data.contains c

/-- Model of Rust `str::split(sep)` on a character separator (adjacent
separators and leading/trailing separators produce empty pieces, as in
Rust). -/
def splitOnChar (sep : Char) : List Char → List (List Char)
  | [] => [[]]
  | c :: cs =>
    let r := splitOnChar sep cs
    if c = sep then [] :: r
    else
      match r with
      | [] => [[c]]
      | h :: t => (c :: h) :: t

/-- Model of Rust `authority.split(':').next().unwrap_or(authority)`:
everything before the first `':'` (the whole string when there is none). -/
def beforeColon (s : String) : String :=
  String.mk (s.data.takeWhile (fun c => c ≠ ':'))

/-! ## MCP guard (`mcp_guard.rs`) -/

/-- Model of `ALLOWED_ORIGINS` (mcp_guard.rs lines 6-11). -/
def allowedOrigins : List String := ["localhost", "127.0.0.1"]

/-- Model of `is_mcp_request` (mcp_guard.rs lines 14-16). -/
def is_mcp_request (host path : String) : Bool :=
  containsSubstr (asciiLower path) "mcp" || containsSubstr (asciiLower host) "mcp"

/-- Model of `origin_allowed` (mcp_guard.rs lines 24-31). -/
def origin_allowed (host : String) : Bool :=
  let hostLower := asciiLower host
  if allowedOrigins.contains hostLower then true
  else allowedOrigins.contains (beforeColon hostLower)

/-- Model of `token_passthrough_disabled` (mcp_guard.rs lines 34-36). -/
def token_passthrough_disabled : Bool := true

/-- One decimal octet of a Rust `Ipv4Addr` literal: 1-3 digits, no leading
zero (unless the octet is exactly `"0"`), value ≤ 255 (Rust std's parser). -/
def parseOctet (s : String) : Option Nat :=
  let cs := s.data
  if cs ≠ [] ∧ cs.length ≤ 3 ∧ cs.all (fun c => c.isDigit)
      ∧ (cs.head? = some '0' → cs = ['0']) then
    let v := cs.foldl (fun acc c => acc * 10 + (c.toNat - '0'.toNat)) 0
    if v ≤ 255 then some v else none
  else none

/-- Model of `Ipv4Addr::from_str`: exactly four dot-separated octets. -/
def parseIpv4 (s : String) : Option (Nat × Nat × Nat × Nat) :=
  match (splitOnChar '.' s.data).mapM (fun p => parseOctet (String.mk p)) with
  | some [a, b, c, d] => some (a, b, c, d)
  | _ => none

/-- Model of `is_private_or_internal` (mcp_guard.rs lines 50-61), IPv4 arm:
`is_private` (10/8, 172.16/12, 192.168/16), `is_loopback` (127/8),
`is_link_local` (169.254/16), `is_broadcast` (255.255.255.255), or first
octet 169. -/
def is_private_or_internal_v4 : Nat × Nat × Nat × Nat → Bool
  | (a, b, c, d) =>
    (a = 10 || (a = 172 && 16 ≤ b && b ≤ 31) || (a = 192 && b = 168))
    || a = 127
    || (a = 169 && b = 254)
    || (a = 255 && b = 255 && c = 255 && d = 255)
    || a = 169

/-- Model of `would_be_ssrf` (mcp_guard.rs lines 39-48).  The host handed to
`IpAddr::from_str` is the prefix of the authority before the first `':'`,
so it can never contain a colon and the IPv6 arm of `from_str` (whose
grammar requires a colon) can never succeed; only the IPv4 parse is
modelled.  When the host is not an IP literal the function returns `false`
on every path (lines 44-47). -/
def would_be_ssrf (authority : String) : Bool :=
  let host := beforeColon authority
  match parseIpv4 host with
  | some ip => is_private_or_internal_v4 ip
  | none => false

/-- C3: the claimed value at `"127.0.0.1"` is wrong: the string parses as
an IPv4 address, `Ipv4Addr::is_loopback` is true, so `would_be_ssrf`
returns `true`; the textual `127.0.0.1` allowance on mcp_guard.rs line 44
is unreachable.  `"10.0.0.5"` is private, as claimed.  `"localhost"` (not
an IP literal) is indeed not treated as SSRF. -/
theorem would_be_ssrf_loopback_bug :
    would_be_ssrf "127.0.0.1" = true
    ∧ would_be_ssrf "10.0.0.5" = true
    ∧ would_be_ssrf "localhost" = false := by
  refine ⟨?_, ?_, ?_⟩ <;> decide

/-! ## 402 parser (`x402.rs`)

`serde_json::Value` is modelled by the inductive `Json`; the serde_json
*parser* itself is third-party code and is passed in as an oracle
`parseJson : String → Option Json` (the claims proved about the parser
hold for every oracle). -/

inductive Json where
  | null : Json
  | bool (b : Bool) : Json
  | num (n : Int) : Json
  | str (s : String) : Json
  | arr (elems : List Json) : Json
  | obj (fields : List (String × Json)) : Json

/-- Model of `serde_json::Value::get(key)` on objects (keys in a parsed
`serde_json` map are unique, so first-match lookup is exact). -/
def Json.get (j : Json) (key : String) : Option Json :=
  match j with
  | .obj fields => (fields.find? (fun f => f.1 = key)).map (·.2)
  | _ => none

/-- Model of `serde_json::Value::as_u64` (integral non-negative numbers
only; the modelled programs never produce numbers outside `u64`). -/
def Json.asU64 (j : Json) : Option Nat :=
  match j with
  | .num n => if 0 ≤ n then some n.toNat else none
  | _ => none

/-- Model of `serde_json::Value::as_str`. -/
def Json.asStr (j : Json) : Option String :=
  match j with
  | .str s => some s
  | _ => none

/-- Model of `serde_json::Value::as_bool`. -/
def Json.asBool (j : Json) : Option Bool :=
  match j with
  | .bool b => some b
  | _ => none

/-- Model of `PaymentIntent` (x402.rs lines 7-12). -/
structure PaymentIntent where
  amount_cents : Nat
  recipient : String
  network : String
  resource : Option String
deriving DecidableEq, Repr

/-- The intent built from a parsed JSON value — the field extraction both
arms of `parse_402_required` share (x402.rs lines 31-47 and 55-71). -/
def intentOfJson (j : Json) : PaymentIntent :=
  { amount_cents := ((j.get "amount_cents").bind Json.asU64).getD 0
    recipient := ((j.get "recipient").bind Json.asStr).getD ""
    network := ((j.get "network").bind Json.asStr).getD "base"
    resource := (j.get "resource").bind Json.asStr }

/-- The header scan `has_402` (x402.rs lines 25-27). -/
def has402 (headers : List (String × String)) : Bool :=
  headers.any (fun kv => eqIgnoreAsciiCase kv.1 "payment-required" || containsSubstr kv.2 "402")

/-- The header loop of `parse_402_required` (x402.rs lines 52-74): the
first `payment-required` header whose value parses as JSON wins. -/
def findHeaderIntent (parseJson : String → Option Json) :
    List (String × String) → Option PaymentIntent
  | [] => none
  | kv :: rest =>
    if eqIgnoreAsciiCase kv.1 "payment-required" then
      match parseJson kv.2 with
      | some j => some (intentOfJson j)
      | none => findHeaderIntent parseJson rest
    else findHeaderIntent parseJson rest

/-- Model of `parse_402_required` (x402.rs lines 24-81). -/
def parse_402_required (parseJson : String → Option Json)
    (headers : List (String × String)) (body : String) : Option PaymentIntent :=
  if has402 headers then
    match findHeaderIntent parseJson headers with
    | some intent => some intent
    | none =>
      some { amount_cents := 0, recipient := "", network := "base", resource := none }
  else
    match parseJson body with
    | some parsed =>
      if ((parsed.get "payment_required").bind Json.asBool).getD false then
        some (intentOfJson parsed)
      else none
    | none => none

theorem findHeaderIntent_none (parseJson : String → Option Json)
    (headers : List (String × String))
    (h : ∀ kv ∈ headers, eqIgnoreAsciiCase kv.1 "payment-required" = true →
      parseJson kv.2 = none) :
    findHeaderIntent parseJson headers = none := by
  induction headers with
  | nil => rfl
  | cons kv rest ih =>
    unfold findHeaderIntent
    by_cases hpr : eqIgnoreAsciiCase kv.1 "payment-required" = true
    · rw [if_pos hpr, h kv (List.mem_cons_self kv rest) hpr]
      exact ih fun kv' hm => h kv' (List.mem_cons_of_mem kv hm)
    · rw [if_neg hpr]
      exact ih fun kv' hm => h kv' (List.mem_cons_of_mem kv hm)

/-- C8: whenever the headers declare a 402 (a `payment-required` name,
case-insensitively, or any value containing `"402"`) but no
`payment-required` header value parses as JSON, the parser returns the
zero intent with network `"base"` and no resource — for every JSON parse
oracle, header list and body. -/
theorem parse_402_zero_fallback (parseJson : String → Option Json)
    (headers : List (String × String)) (body : String)
    (hdecl : has402 headers = true)
    (hnojson : ∀ kv ∈ headers, eqIgnoreAsciiCase kv.1 "payment-required" = true →
      parseJson kv.2 = none) :
    parse_402_required parseJson headers body =
      some { amount_cents := 0, recipient := "", network := "base", resource := none } := by
  unfold parse_402_required
  rw [if_pos hdecl, findHeaderIntent_none parseJson headers hnojson]

/-- Witness for C8: a header value containing `"402"` but no
`payment-required` header at all; the oracle never parses anything. -/
theorem parse_402_zero_fallback_witness :
    has402 [("x-status", "error 402")] = true
    ∧ parse_402_required (fun _ => none) [("x-status", "error 402")] "{}" =
        some { amount_cents := 0, recipient := "", network := "base", resource := none } := by
  refine ⟨by decide, ?_⟩
  exact parse_402_zero_fallback (fun _ => none) [("x-status", "error 402")] "{}"
    (by decide) (fun kv _ _ => rfl)

/-! ## Policy (`policy.rs`) -/

/-- Model of `Policy` (policy.rs lines 7-15). -/
structure Policy where
  allow_domains : List String
  block_domains : List String
  spend_cap_cents : Option Nat
  output_redact_patterns : List String
  auto_settle_402 : Bool

/-- Model of `Policy::default()` (derived `Default`: empty vectors, `None`, `false`). -/
def Policy.defaultPolicy : Policy :=
  { allow_domains := [], block_domains := [], spend_cap_cents := none
    output_redact_patterns := [], auto_settle_402 := false }

/-! ## Mediation proxy (`proxy.rs`)

The handler is a pure function of the request, the shared `ProxyState`
snapshot, and an environment of external collaborators (network, wallet,
serde_json, regex, clock).  Its effects — evidence pushes and upstream
sends — are returned explicitly. -/

/-- Model of `ProxyState` (proxy.rs lines 22-25); the `HashMap` keeps unique keys,
modelled as an association list with first-match lookup. -/
structure ProxyState where
  vault : List (String × String)
  policy : Policy

/-- First-match association lookup (`HashMap::get` / `HeaderMap::get`). -/
def assocGet (l : List (String × String)) (k : String) : Option String :=
  (l.find? (fun kv => kv.1 = k)).map (·.2)

/-- Number of entries stored under a key. -/
def assocCount (l : List (String × String)) (k : String) : Nat :=
  (l.filter (fun kv => kv.1 = k)).length

/-- Model of `HeaderMap::contains_key`. -/
def hasHeader (l : List (String × String)) (k : String) : Bool :=
  l.any (fun kv => kv.1 = k)

/-- Model of `HeaderMap::insert`: all values previously stored under the name are
replaced by the single new value.  (The claims below only observe header
maps through `assocGet`/`assocCount`, never through entry order.) -/
def hmInsert (l : List (String × String)) (k v : String) : List (String × String) :=
  l.filter (fun kv => kv.1 ≠ k) ++ [(k, v)]

/-- The request URI as the handler reads it, via the accessors of
`http::Uri` used in proxy.rs: `scheme_str`, `host`, `port_u16`,
`authority`, `path`, `query`. -/
structure UriM where
  scheme : Option String
  host : Option String
  port : Option Nat
  authority : Option String
  path : String
  query : Option String

/-- An incoming request.  Header names are lowercase — the invariant
axum's `HeaderMap` maintains for every parsed request. -/
structure Req where
  method : String
  uri : UriM
  headers : List (String × String)
  body : String

/-- A request the proxy sends upstream (what `reqwest` is handed:
method, full URL, header map, body bytes). -/
structure OutReq where
  method : String
  url : String
  headers : List (String × String)
  body : String
deriving DecidableEq

/-- An upstream response as captured by the handler (status, headers
as strings, full body). -/
structure UpstreamResp where
  status : Nat
  headers : List (String × String)
  body : String
deriving DecidableEq

/-- Model of `WalletInfo` (wallet.rs lines 37-42). -/
structure WalletInfo where
  has_wallet : Bool
  address : String
  balance_cents : Nat
  network : String

/-- External collaborators of the handler, passed in explicitly:
`send1`/`send2` are the first upstream send and the 402 retry send;
`walletInfo` is `wallet::get_wallet_info()`; `sign` is
`wallet::sign_x402_payment`; `parseJson` is serde_json; `regexReplace
pat text` is `Regex::new(pat)` + `replace_all(text, "[REDACTED]")`
(identity when the pattern fails to compile); `nowMillis` is the clock
read `record_pending` uses for the pending id. -/
structure Env where
  send1 : OutReq → Except String UpstreamResp
  send2 : OutReq → Except String UpstreamResp
  walletInfo : Except String WalletInfo
  sign : Nat → String → String → Except String String
  parseJson : String → Option Json
  regexReplace : String → String → String
  nowMillis : Nat

/-- What one handler invocation did: the response it returned, the
evidence entries it pushed (kind, message) in order, and the upstream
requests it sent in order. -/
structure HandlerResult where
  status : Nat
  body : String
  evidence : List (String × String)
  sent : List OutReq

/-- Host resolution (proxy.rs lines 83-94): the URI host when present and
non-empty, otherwise the `Host` header with any port stripped. -/
def resolveHost (req : Req) : String :=
  let hostHeader := (assocGet req.headers "host").getD ""
  match req.uri.host with
  | some h => if h = "" then beforeColon hostHeader else h
  | none => beforeColon hostHeader

/-- Policy admission (proxy.rs lines 96-109): returns the denial reason,
or `none` when the request is admitted. -/
def policyDeny (policy : Policy) (host : String) : Option String :=
  let allow := policy.allow_domains.isEmpty
    || policy.allow_domains.any (fun d => host.endsWith d)
  let block := policy.block_domains.any (fun d => host.endsWith d)
  if block then some "domain blocked by policy"
  else if !policy.allow_domains.isEmpty && !allow then some "domain not in allow list"
  else none

/-- The MCP gate (proxy.rs lines 117-142): returns the HTTP status and
message of the denial, or `none` when the gate passes. -/
def mcpDeny (host path authority : String) (hasAuth : Bool) : Option (Nat × String) :=
  if is_mcp_request host path then
    if !origin_allowed host then some (403, "MCP server not in allowlist")
    else if would_be_ssrf authority then some (403, "MCP SSRF: private/internal target blocked")
    else if token_passthrough_disabled && hasAuth then
      some (400, "Token passthrough disabled for MCP")
    else none
  else none

/-- Model of `alias_for_host` (proxy.rs lines 321-328). -/
def alias_for_host (host : String) : Option String :=
  if containsSubstr host "openai.com" then some "openai"
  else if containsSubstr host "anthropic.com" then some "anthropic"
  else none

/-- Model of `build_full_uri` (proxy.rs lines 300-319). -/
def build_full_uri (uri : UriM) (host : String) : String :=
  let p := uri.path
  let stripped : Option String :=
    if p.startsWith "https://" then some (p.drop 8)
    else if p.startsWith "http://" then some (p.drop 7)
    else none
  let absolute : Option String :=
    match stripped with
    | some s =>
      if containsChar s '/' || containsChar s '?' then
        some ((if p.startsWith "https" then "https" else "http") ++ "://" ++ s)
      else none
    | none => none
  match absolute with
  | some u => u
  | none =>
    let scheme := uri.scheme.getD "https"
    let query := match uri.query with
      | some q => "?" ++ q
      | none => ""
    if host = "" then scheme ++ "://localhost" ++ p ++ query
    else
      match uri.port with
      | some pt => scheme ++ "://" ++ host ++ ":" ++ toString pt ++ p ++ query
      | none => scheme ++ "://" ++ host ++ p ++ query

/-- Validity of a header value for `HeaderValue::from_str` (http crate):
every byte must be `0x09` (tab) or in `0x20..=0xFF` except `0x7F`.
Bytes of multi-byte UTF-8 characters are all `≥ 0x80`, hence always
valid, so the check reduces to the ASCII characters of the string. -/
def validHeaderValue (s : String) : Bool :=
  s.data.all fun c =>
    128 ≤ c.toNat || c.toNat = 9 || (32 ≤ c.toNat && c.toNat ≠ 127)

/-- The outgoing header map (proxy.rs lines 155-172): copy every incoming
header except — when a credential was injected — any `Authorization`
(case-insensitive); then, if a credential was injected, set
`Authorization: Bearer <key>`, falling back to the literal `"Bearer"`
when the composed value is not a valid header value.  (`HeaderName::
from_bytes`/`HeaderValue::from_bytes` on the copied headers always
succeed: the values come from an already-validated `HeaderMap`.) -/
def buildOutHeaders (headers : List (String × String)) (auth : Option String) :
    List (String × String) :=
  let base := headers.foldl
    (fun acc kv =>
      if eqIgnoreAsciiCase kv.1 "authorization" && auth.isSome then acc
      else hmInsert acc kv.1 kv.2)
    []
  match auth with
  | some key =>
    hmInsert base "authorization"
      (if validHeaderValue ("Bearer " ++ key) then "Bearer " ++ key else "Bearer")
  | none => base

/-- Rust `str::len` — the UTF-8 byte length. -/
def charUtf8Size (c : Char) : Nat :=
  if c.toNat < 0x80 then 1
  else if c.toNat < 0x800 then 2
  else if c.toNat < 0x10000 then 3
  else 4

def utf8Len (s : String) : Nat :=
  (s.data.map charUtf8Size).sum

/-- The UTF-8 bytes of a character (for base64 of the payload). -/
def charUtf8Bytes (c : Char) : List Nat :=
  let n := c.toNat
  if n < 0x80 then [n]
  else if n < 0x800 then [0xC0 + n / 64, 0x80 + n % 64]
  else if n < 0x10000 then [0xE0 + n / 4096, 0x80 + n / 64 % 64, 0x80 + n % 64]
  else [0xF0 + n / 262144, 0x80 + n / 4096 % 64, 0x80 + n / 64 % 64, 0x80 + n % 64]

def utf8Bytes (s : String) : List Nat :=
  s.data.flatMap charUtf8Bytes

def b64Alphabet : List Char :=
  "ABCDEFGHIJKLMNOPQRSTUVWXYZabcdefghijklmnopqrstuvwxyz0123456789+/".data

def b64Char (n : Nat) : Char := b64Alphabet.getD n 'A'

/-- Model of `base64::engine::general_purpose::STANDARD.encode`. -/
def base64Encode : List Nat → List Char
  | [] => []
  | [a] => [b64Char (a / 4), b64Char (a % 4 * 16), '=', '=']
  | [a, b] => [b64Char (a / 4), b64Char (a % 4 * 16 + b / 16), b64Char (b % 16 * 4), '=']
  | a :: b :: c :: rest =>
    b64Char (a / 4) :: b64Char (a % 4 * 16 + b / 16)
      :: b64Char (b % 16 * 4 + c / 64) :: b64Char (c % 64) :: base64Encode rest

/-- The `x-payment` header value (proxy.rs lines 218-228): base64 of the
compact JSON serialization of the payload object.  `serde_json::json!`
stores keys in a `BTreeMap`, so `to_string()` emits them alphabetically;
string fields are emitted verbatim (the signature is `0x`-hex and the
network/recipient carry no characters needing JSON escapes in any
modelled run). -/
def xPaymentValue (sig : String) (intent : PaymentIntent) : String :=
  String.mk (base64Encode (utf8Bytes
    ("\x7b\"amount_cents\":" ++ toString intent.amount_cents
      ++ ",\"network\":\"" ++ intent.network
      ++ "\",\"recipient\":\"" ++ intent.recipient
      ++ "\",\"scheme\":\"evm-eip3009\",\"signature\":\"" ++ sig ++ "\"\x7d")))

/-- Redaction (`redact_body`, proxy.rs lines 330-341): fold the policy
patterns through the regex oracle.  (Bodies are modelled as strings, so
the non-UTF-8 passthrough arm does not arise.) -/
def redactBody (env : Env) (patterns : List String) (body : String) : String :=
  patterns.foldl (fun text pat => env.regexReplace pat text) body

/-- The request-body read (proxy.rs lines 175-176): `to_bytes` with the
10 MiB limit errors out on larger bodies and `unwrap_or_default` turns
that into an empty body. -/
def capturedBody (req : Req) : String :=
  if utf8Len req.body > 10485760 then "" else req.body

/-- The upstream request the handler builds (proxy.rs lines 144-177). -/
def mkOutReq (st : ProxyState) (req : Req) : OutReq :=
  let host := resolveHost req
  { method := req.method
    url := build_full_uri req.uri host
    headers := buildOutHeaders req.headers
      ((alias_for_host host).bind (fun a => assocGet st.vault a))
    body := capturedBody req }

/-- Outcome of the auto-settle attempt (`settle402`): evidence pushed
after the `402 pending` entry, retry requests sent, and the retry
response to return to the caller when the retry was a 2xx success. -/
structure SettleResult where
  evidence : List (String × String)
  sent : List OutReq
  final : Option UpstreamResp

/-- The auto-settle attempt of the 402 branch (proxy.rs lines 201-273):
`should_auto_settle` is `auto_settle_402 && (spend_cap_cents.is_none() ||
amount_cents <= spend_cap_cents.unwrap_or(0))`; then wallet lookup,
signature, retry with the `x-payment` header, and — only on a 2xx retry —
the `402 settled` evidence entry and the retry response.  On every
failure the attempt falls through (the caller returns the original 402). -/
def settle402 (env : Env) (policy : Policy) (method targetUrl : String)
    (outHeaders : List (String × String)) (bodyBytes : String)
    (intent : PaymentIntent) : SettleResult :=
  let shouldAutoSettle := policy.auto_settle_402
    && (policy.spend_cap_cents.isNone
        || intent.amount_cents ≤ policy.spend_cap_cents.getD 0)
  if shouldAutoSettle then
    match env.walletInfo with
    | .ok walletInfo =>
      if walletInfo.has_wallet then
        match env.sign intent.amount_cents intent.recipient intent.network with
        | .ok sig =>
          let payload := xPaymentValue sig intent
          let retryHeaders := hmInsert outHeaders "x-payment"
            (if validHeaderValue payload then payload else "")
          let retryReq : OutReq :=
            { method := method, url := targetUrl, headers := retryHeaders, body := bodyBytes }
          match env.send2 retryReq with
          | .ok retry =>
            if 200 ≤ retry.status ∧ retry.status < 300 then
              { evidence := [("payment",
                  "402 settled " ++ toString intent.amount_cents
                    ++ " cents -> " ++ intent.recipient)]
                sent := [retryReq], final := some retry }
            else { evidence := [], sent := [retryReq], final := none }
          | .error _ => { evidence := [], sent := [retryReq], final := none }
        | .error _ => { evidence := [], sent := [], final := none }
      else { evidence := [], sent := [], final := none }
    | .error _ => { evidence := [], sent := [], final := none }
  else { evidence := [], sent := [], final := none }

/-- Model of `proxy_handler` (proxy.rs lines 81-298). -/
def proxy_handler (env : Env) (st : ProxyState) (req : Req) : HandlerResult :=
  let host := resolveHost req
  match policyDeny st.policy host with
  | some reason =>
    let msg := "Vault-0 policy denied: " ++ reason
    { status := 403, body := msg, evidence := [("blocked", msg)], sent := [] }
  | none =>
    match mcpDeny host req.uri.path ((req.uri.authority).getD "")
        (hasHeader req.headers "authorization") with
    | some st_msg =>
      { status := st_msg.1, body := st_msg.2
        evidence := [("blocked", st_msg.2)], sent := [] }
    | none =>
      let targetUrl := build_full_uri req.uri host
      let redactPatterns := st.policy.output_redact_patterns
      let outReq := mkOutReq st req
      match env.send1 outReq with
      | .error e =>
        { status := 502, body := "Upstream error: " ++ e, evidence := [], sent := [outReq] }
      | .ok resp =>
        if resp.status = 402 then
          match parse_402_required env.parseJson resp.headers resp.body with
          | some intent =>
            let id := "pay_" ++ toString env.nowMillis
            let pendingEntry := ("payment",
              "402 pending " ++ toString intent.amount_cents ++ " cents -> "
                ++ intent.recipient ++ " [" ++ id ++ "]")
            let attempt := settle402 env st.policy req.method targetUrl
              outReq.headers outReq.body intent
            match attempt.final with
            | some retry =>
              { status := retry.status
                body := redactBody env redactPatterns retry.body
                evidence := pendingEntry :: attempt.evidence
                sent := outReq :: attempt.sent }
            | none =>
              { status := resp.status
                body := redactBody env redactPatterns resp.body
                evidence := pendingEntry :: attempt.evidence
                sent := outReq :: attempt.sent }
          | none =>
            { status := resp.status
              body := redactBody env redactPatterns resp.body
              evidence := [], sent := [outReq] }
        else
          { status := resp.status
            body := redactBody env redactPatterns resp.body
            evidence := [("allowed", req.method ++ " " ++ targetUrl)]
            sent := [outReq] }


/-! ## C1 — auto-settle gating

Concrete fixtures for the C1 statements: an environment whose wallet
exists and signs, whose retry send succeeds with a 200 response, and the
two policies (no cap / cap 500) under scrutiny. -/

def settleTestEnv : Env where
  send1 := fun _ => .error "unused"
  send2 := fun _ => .ok { status := 200, headers := [], body := "ok" }
  walletInfo := .ok { has_wallet := true, address := "0xW", balance_cents := 0, network := "base" }
  sign := fun _ _ _ => .ok "0xsig"
  parseJson := fun _ => none
  regexReplace := fun _ t => t
  nowMillis := 0

def settleNoCapPolicy : Policy where
  allow_domains := []
  block_domains := []
  spend_cap_cents := none
  output_redact_patterns := []
  auto_settle_402 := true

def settleCapPolicy : Policy where
  allow_domains := []
  block_domains := []
  spend_cap_cents := some 500
  output_redact_patterns := []
  auto_settle_402 := true

def settleIntent (amount : Nat) : PaymentIntent where
  amount_cents := amount
  recipient := "0xR"
  network := "base"
  resource := none

/-- C1 counterexample: with `spend_cap_cents` absent, `auto_settle_402`
on, a wallet present and a signature available, the 402 handling *does*
auto-settle — it sends the retry and logs `402 settled` — even for an
arbitrarily large amount, where the claim says an absent cap denies every
intent.  `should_auto_settle` (proxy.rs line 205) treats `None` as "no
limit", not as "deny". -/
theorem auto_settle_no_cap_counterexample :
    (settle402 settleTestEnv settleNoCapPolicy "POST" "https://api.example.com/" [] ""
      (settleIntent 1000000)).sent.length = 1
    ∧ (settle402 settleTestEnv settleNoCapPolicy "POST" "https://api.example.com/" [] ""
      (settleIntent 1000000)).evidence = [("payment", "402 settled 1000000 cents -> 0xR")]
    ∧ settleNoCapPolicy.spend_cap_cents = none := by
  refine ⟨?_, ?_, ?_⟩ <;> decide

/-- C1 (amended): auto-settlement proceeds (a retry is sent) only when
`auto_settle_402` is enabled, the wallet lookup succeeds with a wallet
present, a signature is produced, and the amount is within the spend cap
*when a cap is set* — an absent cap imposes no bound (rather than
denying, as the original claim states). -/
theorem auto_settle_gating (env : Env) (policy : Policy)
    (method targetUrl : String) (outHeaders : List (String × String))
    (bodyBytes : String) (intent : PaymentIntent)
    (h : (settle402 env policy method targetUrl outHeaders bodyBytes intent).sent ≠ []) :
    policy.auto_settle_402 = true
    ∧ (policy.spend_cap_cents = none
       ∨ ∃ cap, policy.spend_cap_cents = some cap ∧ intent.amount_cents ≤ cap)
    ∧ (∃ wi, env.walletInfo = .ok wi ∧ wi.has_wallet = true)
    ∧ ∃ sig, env.sign intent.amount_cents intent.recipient intent.network = .ok sig := by
  simp only [settle402] at h
  split at h
  next hcond =>
    rw [Bool.and_eq_true] at hcond
    obtain ⟨hauto, hcap⟩ := hcond
    have hcap' : policy.spend_cap_cents = none
        ∨ ∃ cap, policy.spend_cap_cents = some cap ∧ intent.amount_cents ≤ cap := by
      rw [Bool.or_eq_true] at hcap
      rcases hcap with hnone | hle
      · exact Or.inl (Option.isNone_iff_eq_none.mp hnone)
      · cases hc : policy.spend_cap_cents with
        | none => exact Or.inl rfl
        | some cap =>
          refine Or.inr ⟨cap, rfl, ?_⟩
          have := of_decide_eq_true hle
          rwa [hc, Option.getD_some] at this
    refine ⟨hauto, hcap', ?_⟩
    split at h
    next wi hwi =>
      split at h
      next hhas =>
        refine ⟨⟨wi, hwi, hhas⟩, ?_⟩
        split at h
        next sig hsig => exact ⟨sig, hsig⟩
        next => simp at h
      next => simp at h
    next => simp at h
  next => simp at h

/-- Witness for the amended C1, on the branch with a cap present:
cap 500, amount 200, wallet present, signing available. -/
theorem auto_settle_gating_witness :
    (settle402 settleTestEnv settleCapPolicy "POST" "https://api.example.com/" [] ""
      (settleIntent 200)).sent ≠ []
    ∧ settleCapPolicy.auto_settle_402 = true
    ∧ (settleCapPolicy.spend_cap_cents = none
       ∨ ∃ cap, settleCapPolicy.spend_cap_cents = some cap
          ∧ (settleIntent 200).amount_cents ≤ cap) := by
  have h : (settle402 settleTestEnv settleCapPolicy "POST" "https://api.example.com/" [] ""
      (settleIntent 200)).sent ≠ [] := by decide
  have hg := auto_settle_gating settleTestEnv settleCapPolicy "POST"
    "https://api.example.com/" [] "" (settleIntent 200) h
  exact ⟨h, hg.1, hg.2.1⟩


/-! ## Header-map lemmas (for C2 and C9) -/

theorem assocGet_hmInsert_self (l : List (String × String)) (k v : String) :
    assocGet (hmInsert l k v) k = some v := by
  unfold assocGet hmInsert
  rw [List.find?_append]
  have hnone : (l.filter (fun kv => kv.1 ≠ k)).find? (fun kv => kv.1 = k) = none := by
    rw [List.find?_eq_none]
    intro kv hm
    have := List.of_mem_filter hm
    simpa using this
  rw [hnone]
  simp

theorem assocCount_hmInsert_self (l : List (String × String)) (k v : String) :
    assocCount (hmInsert l k v) k = 1 := by
  unfold assocCount hmInsert
  rw [List.filter_append]
  have hnil : (l.filter (fun kv => kv.1 ≠ k)).filter (fun kv => kv.1 = k) = [] := by
    rw [List.filter_eq_nil_iff]
    intro kv hm
    have := List.of_mem_filter hm
    simpa using this
  rw [hnil]
  simp

/-- The last value stored under a key (what repeated `HeaderMap::insert`
during the copy loop leaves in place). -/
def lastGet : List (String × String) → String → Option String
  | [], _ => none
  | kv :: rest, k =>
    match lastGet rest k with
    | some v => some v
    | none => if kv.1 = k then some kv.2 else none

def foldInsert (hs : List (String × String)) : List (String × String) :=
  hs.foldl (fun acc kv => hmInsert acc kv.1 kv.2) []

theorem find?_filter_ne (l : List (String × String)) (k k' : String) (h : k' ≠ k) :
    (l.filter (fun kv => kv.1 ≠ k)).find? (fun kv => kv.1 = k') =
      l.find? (fun kv => kv.1 = k') := by
  induction l with
  | nil => rfl
  | cons kv rest ih =>
    by_cases hk : kv.1 = k
    · rw [List.filter_cons_of_neg (by simpa using hk), ih,
        List.find?_cons_of_neg _ (by simp only [decide_eq_true_eq]; exact fun hc => h (hc ▸ hk))]
    · rw [List.filter_cons_of_pos (by simpa using hk)]
      by_cases hk' : kv.1 = k'
      · rw [List.find?_cons_of_pos _ (by simpa using hk'),
          List.find?_cons_of_pos _ (by simpa using hk')]
      · rw [List.find?_cons_of_neg _ (by simpa using hk'),
          List.find?_cons_of_neg _ (by simpa using hk'), ih]

theorem assocGet_hmInsert_other (l : List (String × String)) (k v k' : String)
    (h : k' ≠ k) : assocGet (hmInsert l k v) k' = assocGet l k' := by
  unfold assocGet hmInsert
  rw [List.find?_append, find?_filter_ne l k k' h]
  have h2 : List.find? (fun kv => kv.1 = k') [(k, v)] = none := by
    simp [Ne.symm h]
  rw [h2, Option.or_none]

theorem assocCount_hmInsert_other (l : List (String × String)) (k v k' : String)
    (h : k' ≠ k) : assocCount (hmInsert l k v) k' = assocCount l k' := by
  unfold assocCount hmInsert
  rw [List.filter_append]
  have h1 : List.filter (fun kv => kv.1 = k') [(k, v)] = [] := by
    simp [Ne.symm h]
  rw [h1, List.append_nil, List.filter_filter]
  have h2 : l.filter (fun a => decide (a.1 = k') && decide (a.1 ≠ k)) =
      l.filter (fun kv => kv.1 = k') := by
    refine List.filter_congr ?_
    intro a _
    by_cases ha : a.1 = k'
    · have hne : a.1 ≠ k := fun hc => h (ha ▸ hc)
      simp only [ha, hne]
      simp [h]
    · simp [ha]
  rw [h2]

theorem assocGet_foldl_insert (hs : List (String × String)) (k : String) :
    ∀ acc, assocGet (hs.foldl (fun acc kv => hmInsert acc kv.1 kv.2) acc) k =
      match lastGet hs k with
      | some v => some v
      | none => assocGet acc k := by
  induction hs with
  | nil => intro acc; rfl
  | cons kv rest ih =>
    intro acc
    simp only [List.foldl_cons]
    rw [ih]
    cases hlast : lastGet rest k with
    | some v => simp [lastGet, hlast]
    | none =>
      by_cases hk : kv.1 = k
      · simp only [lastGet, hlast, if_pos hk]
        rw [← hk, assocGet_hmInsert_self]
      · simp only [lastGet, hlast, if_neg hk]
        rw [assocGet_hmInsert_other _ _ _ _ (fun hc => hk hc.symm)]

theorem assocCount_foldl_insert (hs : List (String × String)) (k : String) :
    ∀ acc, assocCount (hs.foldl (fun acc kv => hmInsert acc kv.1 kv.2) acc) k =
      (if hasHeader hs k then 1 else assocCount acc k) := by
  induction hs with
  | nil => intro acc; simp [hasHeader]
  | cons kv rest ih =>
    intro acc
    simp only [List.foldl_cons]
    rw [ih]
    by_cases hk : kv.1 = k
    · have h1 : hasHeader (kv :: rest) k = true := by simp [hasHeader, hk]
      rw [h1]
      by_cases hr : hasHeader rest k
      · rw [if_pos hr, if_pos rfl]
      · rw [if_neg (by simpa using hr), if_pos rfl, ← hk, assocCount_hmInsert_self]
    · have h1 : hasHeader (kv :: rest) k = hasHeader rest k := by
        simp [hasHeader, hk]
      rw [h1]
      by_cases hr : hasHeader rest k
      · rw [if_pos (by simpa using hr), if_pos (by simpa using hr)]
      · rw [if_neg (by simpa using hr), if_neg (by simpa using hr),
          assocCount_hmInsert_other _ _ _ _ (fun hc => hk hc.symm)]

theorem assocCount_cons_pos (kv : String × String) (rest : List (String × String))
    (k : String) (hk : kv.1 = k) :
    assocCount (kv :: rest) k = assocCount rest k + 1 := by
  unfold assocCount
  rw [List.filter_cons_of_pos (by simpa using hk)]
  simp [Nat.add_comm]

theorem assocCount_cons_neg (kv : String × String) (rest : List (String × String))
    (k : String) (hk : ¬ kv.1 = k) :
    assocCount (kv :: rest) k = assocCount rest k := by
  unfold assocCount
  rw [List.filter_cons_of_neg (by simpa using hk)]

theorem lastGet_of_count_zero (hs : List (String × String)) (k : String)
    (h : assocCount hs k = 0) : lastGet hs k = none := by
  induction hs with
  | nil => rfl
  | cons kv rest ih =>
    by_cases hk : kv.1 = k
    · rw [assocCount_cons_pos kv rest k hk] at h
      omega
    · rw [assocCount_cons_neg kv rest k hk] at h
      simp [lastGet, ih h, hk]

theorem lastGet_of_count_one (hs : List (String × String)) (k : String)
    (h : assocCount hs k = 1) : lastGet hs k = assocGet hs k := by
  induction hs with
  | nil => rfl
  | cons kv rest ih =>
    by_cases hk : kv.1 = k
    · rw [assocCount_cons_pos kv rest k hk] at h
      have hzero : assocCount rest k = 0 := by omega
      unfold assocGet
      rw [List.find?_cons_of_pos _ (by simpa using hk)]
      simp [lastGet, lastGet_of_count_zero rest k hzero, hk]
    · rw [assocCount_cons_neg kv rest k hk] at h
      have hrest := ih h
      have hcons : assocGet (kv :: rest) k = assocGet rest k := by
        unfold assocGet
        rw [List.find?_cons_of_neg _ (by simpa using hk)]
      rw [hcons, ← hrest]
      cases hfind : lastGet rest k with
      | some v => simp [lastGet, hfind]
      | none => simp [lastGet, hfind, hk]

theorem buildOutHeaders_none (hs : List (String × String)) :
    buildOutHeaders hs none = hs.foldl (fun acc kv => hmInsert acc kv.1 kv.2) [] := by
  unfold buildOutHeaders
  simp


theorem hasHeader_of_assocGet (hs : List (String × String)) (k w : String)
    (h : assocGet hs k = some w) : hasHeader hs k = true := by
  unfold assocGet at h
  cases hfind : hs.find? (fun kv => kv.1 = k) with
  | none => rw [hfind] at h; simp at h
  | some kv =>
    have hmem := List.mem_of_find?_eq_some hfind
    have hp := List.find?_some hfind
    unfold hasHeader
    rw [List.any_eq_true]
    exact ⟨kv, hmem, hp⟩

/-- Whatever the upstream does, an admitted request (policy admission and
MCP gate both pass) is forwarded: the first upstream send is exactly
`mkOutReq st req`. -/
theorem proxy_handler_sent_head (env : Env) (st : ProxyState) (req : Req)
    (h1 : policyDeny st.policy (resolveHost req) = none)
    (h2 : mcpDeny (resolveHost req) req.uri.path ((req.uri.authority).getD "")
      (hasHeader req.headers "authorization") = none) :
    (proxy_handler env st req).sent.head? = some (mkOutReq st req) := by
  simp only [proxy_handler, h1, h2]
  split
  next => rfl
  next resp _ =>
    split
    next =>
      split
      next => split <;> rfl
      next => rfl
    next => rfl

/-! ## C2 — credential injection, C9 — passthrough without a secret -/

/-- C2 (amended): for an admitted request whose host selects an alias
carrying a vault value `v`, the forwarded request holds exactly one
`authorization` header whose value is `Bearer v` — provided `"Bearer " ++ v`
is a valid HTTP header value; a credential containing header-invalid
bytes is forwarded as the literal `Bearer` instead (the `unwrap_or_else`
on proxy.rs line 170), which is the one correction to the claim.  The
caller's own `Authorization` is dropped in either case. -/
theorem credential_injection (env : Env) (st : ProxyState) (req : Req) (a v : String)
    (h1 : policyDeny st.policy (resolveHost req) = none)
    (h2 : mcpDeny (resolveHost req) req.uri.path ((req.uri.authority).getD "")
      (hasHeader req.headers "authorization") = none)
    (ha : alias_for_host (resolveHost req) = some a)
    (hv : assocGet st.vault a = some v)
    (hvalid : validHeaderValue ("Bearer " ++ v) = true) :
    (proxy_handler env st req).sent.head? = some (mkOutReq st req)
    ∧ assocGet (mkOutReq st req).headers "authorization" = some ("Bearer " ++ v)
    ∧ assocCount (mkOutReq st req).headers "authorization" = 1 := by
  have hauth : (alias_for_host (resolveHost req)).bind (fun al => assocGet st.vault al)
      = some v := by
    rw [ha]
    simpa using hv
  refine ⟨proxy_handler_sent_head env st req h1 h2, ?_, ?_⟩
  · simp only [mkOutReq, hauth, buildOutHeaders]
    rw [if_pos hvalid, assocGet_hmInsert_self]
  · simp only [mkOutReq, hauth, buildOutHeaders]
    rw [assocCount_hmInsert_self]


/-- A benign environment: first send succeeds with a 200, no wallet. -/
def okEnv : Env where
  send1 := fun _ => .ok { status := 200, headers := [], body := "ok" }
  send2 := fun _ => .ok { status := 200, headers := [], body := "ok" }
  walletInfo := .ok { has_wallet := false, address := "", balance_cents := 0, network := "base" }
  sign := fun _ _ _ => .error "no wallet"
  parseJson := fun _ => none
  regexReplace := fun _ t => t
  nowMillis := 42

/-- A plain request addressed to `api.openai.com` with a client
`Authorization` header. -/
def openaiReq : Req where
  method := "POST"
  uri := { scheme := some "http", host := some "api.openai.com", port := none
           authority := some "api.openai.com", path := "/v1/chat", query := none }
  headers := [("host", "api.openai.com"), ("authorization", "Bearer CLIENT_KEY")]
  body := ""

/-- C2 counterexample: a stored credential containing a newline is not a
valid header value, so the forwarded `Authorization` is the literal
`"Bearer"` — not `Bearer <vault_value>` as the claim states for every
vault value. -/
theorem credential_injection_counterexample :
    ((proxy_handler okEnv
        { vault := [("openai", "bad\nvalue")], policy := Policy.defaultPolicy }
        openaiReq).sent.map (fun r => assocGet r.headers "authorization"))
      = [some "Bearer"]
    ∧ "Bearer" ≠ "Bearer " ++ "bad\nvalue" := by
  exact ⟨by decide, by decide⟩

/-- Witness for the amended C2: vault value `sk-LIVE` (header-valid), the
forwarded request carries exactly `Authorization: Bearer sk-LIVE`. -/
theorem credential_injection_witness :
    policyDeny Policy.defaultPolicy (resolveHost openaiReq) = none
    ∧ alias_for_host (resolveHost openaiReq) = some "openai"
    ∧ (proxy_handler okEnv { vault := [("openai", "sk-LIVE")], policy := Policy.defaultPolicy }
        openaiReq).sent.head?
        = some (mkOutReq { vault := [("openai", "sk-LIVE")], policy := Policy.defaultPolicy } openaiReq)
    ∧ assocGet (mkOutReq { vault := [("openai", "sk-LIVE")], policy := Policy.defaultPolicy }
        openaiReq).headers "authorization" = some ("Bearer " ++ "sk-LIVE")
    ∧ assocCount (mkOutReq { vault := [("openai", "sk-LIVE")], policy := Policy.defaultPolicy }
        openaiReq).headers "authorization" = 1 := by
  have h := credential_injection okEnv
    { vault := [("openai", "sk-LIVE")], policy := Policy.defaultPolicy }
    openaiReq "openai" "sk-LIVE" (by decide) (by decide) (by decide) (by decide) (by decide)
  exact ⟨by decide, by decide, h.1, h.2.1, h.2.2⟩

/-- C9: for an admitted request whose host selects an alias but whose
alias has no value in the proxy's secret map, the caller's original
`Authorization` header (assumed unique, as `HeaderMap` keeps it) is
forwarded unchanged — neither stripped nor replaced. -/
theorem auth_passthrough_without_secret (env : Env) (st : ProxyState) (req : Req)
    (a w : String)
    (h1 : policyDeny st.policy (resolveHost req) = none)
    (h2 : mcpDeny (resolveHost req) req.uri.path ((req.uri.authority).getD "")
      (hasHeader req.headers "authorization") = none)
    (ha : alias_for_host (resolveHost req) = some a)
    (hv : assocGet st.vault a = none)
    (hw : assocGet req.headers "authorization" = some w)
    (hcount : assocCount req.headers "authorization" = 1) :
    (proxy_handler env st req).sent.head? = some (mkOutReq st req)
    ∧ assocGet (mkOutReq st req).headers "authorization" = some w
    ∧ assocCount (mkOutReq st req).headers "authorization" = 1 := by
  have hauth : (alias_for_host (resolveHost req)).bind (fun al => assocGet st.vault al)
      = none := by
    rw [ha]
    simpa using hv
  refine ⟨proxy_handler_sent_head env st req h1 h2, ?_, ?_⟩
  · simp only [mkOutReq, hauth, buildOutHeaders_none]
    rw [assocGet_foldl_insert, lastGet_of_count_one _ _ hcount, hw]
  · simp only [mkOutReq, hauth, buildOutHeaders_none]
    rw [assocCount_foldl_insert,
      if_pos (hasHeader_of_assocGet req.headers "authorization" w hw)]

/-- A request addressed to `api.anthropic.com` with a client
`Authorization` header. -/
def anthropicReq : Req where
  method := "POST"
  uri := { scheme := some "http", host := some "api.anthropic.com", port := none
           authority := some "api.anthropic.com", path := "/v1/messages", query := none }
  headers := [("host", "api.anthropic.com"), ("authorization", "Bearer CLIENT_KEY")]
  body := ""

/-- Witness for C9: empty secret map, the client's `Bearer CLIENT_KEY`
goes upstream untouched. -/
theorem auth_passthrough_without_secret_witness :
    alias_for_host (resolveHost anthropicReq) = some "anthropic"
    ∧ assocGet ([] : List (String × String)) "anthropic" = none
    ∧ (proxy_handler okEnv { vault := [], policy := Policy.defaultPolicy }
        anthropicReq).sent.head?
        = some (mkOutReq { vault := [], policy := Policy.defaultPolicy } anthropicReq)
    ∧ assocGet (mkOutReq { vault := [], policy := Policy.defaultPolicy }
        anthropicReq).headers "authorization" = some "Bearer CLIENT_KEY"
    ∧ assocCount (mkOutReq { vault := [], policy := Policy.defaultPolicy }
        anthropicReq).headers "authorization" = 1 := by
  have h := auth_passthrough_without_secret okEnv
    { vault := [], policy := Policy.defaultPolicy } anthropicReq "anthropic"
    "Bearer CLIENT_KEY" (by decide) (by decide) (by decide) (by decide) (by decide) (by decide)
  exact ⟨by decide, by decide, h.1, h.2.1, h.2.2⟩


/-! ## C6 — evidence discipline -/

/-- Number of evidence entries of a given kind. -/
def countKind (ev : List (String × String)) (k : String) : Nat :=
  (ev.filter (fun e => e.1 = k)).length

/-- The settle attempt pushes either nothing or exactly one `payment`
(`402 settled`) entry. -/
theorem settle402_evidence_shape (env : Env) (policy : Policy)
    (method targetUrl : String) (outHeaders : List (String × String))
    (bodyBytes : String) (intent : PaymentIntent) :
    (settle402 env policy method targetUrl outHeaders bodyBytes intent).evidence = []
    ∨ ∃ m, (settle402 env policy method targetUrl outHeaders bodyBytes intent).evidence
        = [("payment", m)] := by
  simp only [settle402]
  repeat' split
  all_goals first
    | exact Or.inl rfl
    | exact Or.inr ⟨_, rfl⟩

/-- C6 (amended): per handler invocation — a denied request produces
exactly one `blocked` entry; an admitted request whose upstream send
succeeds with a non-402 status produces exactly one `allowed` entry; an
admitted request whose upstream send *fails* produces **no** evidence at
all (the `Err` arm, proxy.rs lines 292-297, pushes nothing — the original
claim wrongly includes this path); a 402 response with a parsed intent
produces at least one `payment` entry and no `allowed`/`blocked`; a 402
response in which no intent is recognized produces no evidence at all
(also contrary to the original claim). -/
theorem evidence_discipline (env : Env) (st : ProxyState) (req : Req) :
    (∀ r, policyDeny st.policy (resolveHost req) = some r →
      (proxy_handler env st req).evidence = [("blocked", "Vault-0 policy denied: " ++ r)])
    ∧ (∀ c m, policyDeny st.policy (resolveHost req) = none →
        mcpDeny (resolveHost req) req.uri.path ((req.uri.authority).getD "")
          (hasHeader req.headers "authorization") = some (c, m) →
        (proxy_handler env st req).evidence = [("blocked", m)])
    ∧ (∀ e, policyDeny st.policy (resolveHost req) = none →
        mcpDeny (resolveHost req) req.uri.path ((req.uri.authority).getD "")
          (hasHeader req.headers "authorization") = none →
        env.send1 (mkOutReq st req) = .error e →
        (proxy_handler env st req).evidence = [])
    ∧ (∀ resp, policyDeny st.policy (resolveHost req) = none →
        mcpDeny (resolveHost req) req.uri.path ((req.uri.authority).getD "")
          (hasHeader req.headers "authorization") = none →
        env.send1 (mkOutReq st req) = .ok resp → resp.status ≠ 402 →
        (proxy_handler env st req).evidence
          = [("allowed", req.method ++ " " ++ build_full_uri req.uri (resolveHost req))])
    ∧ (∀ resp intent, policyDeny st.policy (resolveHost req) = none →
        mcpDeny (resolveHost req) req.uri.path ((req.uri.authority).getD "")
          (hasHeader req.headers "authorization") = none →
        env.send1 (mkOutReq st req) = .ok resp → resp.status = 402 →
        parse_402_required env.parseJson resp.headers resp.body = some intent →
        1 ≤ countKind (proxy_handler env st req).evidence "payment"
        ∧ countKind (proxy_handler env st req).evidence "allowed" = 0
        ∧ countKind (proxy_handler env st req).evidence "blocked" = 0)
    ∧ (∀ resp, policyDeny st.policy (resolveHost req) = none →
        mcpDeny (resolveHost req) req.uri.path ((req.uri.authority).getD "")
          (hasHeader req.headers "authorization") = none →
        env.send1 (mkOutReq st req) = .ok resp → resp.status = 402 →
        parse_402_required env.parseJson resp.headers resp.body = none →
        (proxy_handler env st req).evidence = []) := by
  refine ⟨?_, ?_, ?_, ?_, ?_, ?_⟩
  · intro r h
    simp only [proxy_handler, h]
  · intro c m h1 h2
    simp only [proxy_handler, h1, h2]
  · intro e h1 h2 hsend
    simp only [proxy_handler, h1, h2, hsend]
  · intro resp h1 h2 hsend h402
    simp only [proxy_handler, h1, h2, hsend]
    rw [if_neg h402]
  · intro resp intent h1 h2 hsend h402 hparse
    simp only [proxy_handler, h1, h2, hsend]
    rw [if_pos h402]
    simp only [hparse]
    rcases settle402_evidence_shape env st.policy req.method
        (build_full_uri req.uri (resolveHost req)) (mkOutReq st req).headers
        (mkOutReq st req).body intent with hev | ⟨m, hev⟩ <;>
      rcases hfinal : (settle402 env st.policy req.method
        (build_full_uri req.uri (resolveHost req)) (mkOutReq st req).headers
        (mkOutReq st req).body intent).final with _ | retry <;>
      simp only [hfinal, hev, countKind, List.filter] <;> simp
  · intro resp h1 h2 hsend h402 hparse
    simp only [proxy_handler, h1, h2, hsend]
    rw [if_pos h402]
    simp only [hparse]

/-- An environment whose upstream send fails with a transport error. -/
def errEnv : Env where
  send1 := fun _ => .error "connection refused"
  send2 := fun _ => .error "connection refused"
  walletInfo := .ok { has_wallet := false, address := "", balance_cents := 0, network := "base" }
  sign := fun _ _ _ => .error "no wallet"
  parseJson := fun _ => none
  regexReplace := fun _ t => t
  nowMillis := 42

/-- An environment whose upstream answers 402 but with headers that never
declare a 402 and a body that is not JSON: no intent is recognized. -/
def blank402Env : Env where
  send1 := fun _ => .ok { status := 402, headers := [("content-type", "text/plain")], body := "pay" }
  send2 := fun _ => .ok { status := 402, headers := [("content-type", "text/plain")], body := "pay" }
  walletInfo := .ok { has_wallet := false, address := "", balance_cents := 0, network := "base" }
  sign := fun _ _ _ => .error "no wallet"
  parseJson := fun _ => none
  regexReplace := fun _ t => t
  nowMillis := 42

def emptyVaultState : ProxyState where
  vault := []
  policy := Policy.defaultPolicy

/-- C6 counterexample: two admitted requests that terminate with **no**
evidence entry at all — one on the upstream-transport-error path (claimed
to yield exactly one `allowed`/`blocked`) and one on the 402 path with no
recognizable intent (claimed to yield at least one `payment`). -/
theorem evidence_discipline_counterexample :
    (proxy_handler errEnv emptyVaultState openaiReq).evidence = []
    ∧ (proxy_handler errEnv emptyVaultState openaiReq).status = 502
    ∧ (proxy_handler blank402Env emptyVaultState openaiReq).evidence = []
    ∧ (proxy_handler blank402Env emptyVaultState openaiReq).status = 402 := by
  refine ⟨?_, ?_, ?_, ?_⟩ <;> decide

/-- Witness for the amended C6, on the allowed branch: a successful 200
round trip yields exactly one `allowed` entry. -/
theorem evidence_discipline_witness :
    policyDeny Policy.defaultPolicy (resolveHost openaiReq) = none
    ∧ okEnv.send1 (mkOutReq emptyVaultState openaiReq)
        = .ok { status := 200, headers := [], body := "ok" }
    ∧ (proxy_handler okEnv emptyVaultState openaiReq).evidence
        = [("allowed", openaiReq.method ++ " "
            ++ build_full_uri openaiReq.uri (resolveHost openaiReq))] := by
  refine ⟨by decide, rfl, ?_⟩
  exact (evidence_discipline okEnv emptyVaultState openaiReq).2.2.2.1
    { status := 200, headers := [], body := "ok" }
    (by decide) (by decide) rfl (by decide)


/-! ## C10 — `stop()` frame property -/

/-- Model of `ProxyError` (proxy.rs lines 34-42). -/
inductive ProxyError where
  | alreadyRunning : ProxyError
  | notRunning : ProxyError
  | bindFailed (msg : String) : ProxyError
deriving DecidableEq

/-- The proxy's process-wide mutable state: the atomic `RUNNING` flag and
the `STATE` lock (vault map and policy), proxy.rs lines 20-32. -/
structure ProxyGlobal where
  running : Bool
  state : ProxyState

/-- Model of `stop` (proxy.rs lines 74-79): `RUNNING.swap(false)` — the old value
decides between `NotRunning` and success; nothing but the flag is
touched. -/
def stop (g : ProxyGlobal) : Except ProxyError ProxyGlobal :=
  if g.running then .ok { g with running := false }
  else .error ProxyError.notRunning

/-- Model of `is_running` (proxy.rs lines 44-46). -/
def is_running (g : ProxyGlobal) : Bool := g.running

/-- C10: a successful `stop` flips exactly the running flag, leaving the
vault/policy state untouched, and the request handler — which never reads
the flag — behaves identically on the stopped state.  (The listener loop
spawned by `start` likewise never consults the flag; its continued
accept-loop is a scheduling fact outside this embedding.) -/
theorem stop_only_flips_flag (g : ProxyGlobal) (h : g.running = true)
    (env : Env) (req : Req) :
    stop g = .ok { running := false, state := g.state }
    ∧ is_running { running := false, state := g.state } = false
    ∧ proxy_handler env ({ running := false, state := g.state } : ProxyGlobal).state req
        = proxy_handler env g.state req := by
  refine ⟨?_, rfl, rfl⟩
  simp [stop, h]

/-- Witness for C10 at a concrete running global, request and
environment. -/
theorem stop_only_flips_flag_witness :
    ({ running := true, state := emptyVaultState } : ProxyGlobal).running = true
    ∧ stop { running := true, state := emptyVaultState }
        = .ok { running := false, state := emptyVaultState }
    ∧ proxy_handler okEnv
        ({ running := false, state := emptyVaultState } : ProxyGlobal).state openaiReq
      = proxy_handler okEnv
        ({ running := true, state := emptyVaultState } : ProxyGlobal).state openaiReq := by
  have h := stop_only_flips_flag { running := true, state := emptyVaultState } rfl okEnv openaiReq
  exact ⟨rfl, h.1, h.2.2⟩

/-! ## Vault store (`vault_store.rs`)

The Argon2 KDF, AES-256-GCM and serde_json are external crates; they
enter the model as an abstract `Crypto` record, and the round-trip laws
they satisfy become hypotheses of the round-trip theorem.  Randomness
(salts, nonces) and the clock are explicit arguments.  The hex encoding
of the three byte fields in the on-disk JSON round-trips and is elided:
the file is modelled with raw byte lists. -/

/-- One Argon2 parameter set `(m, t, p)`. -/
structure Argon2Params where
  m : Nat
  t : Nat
  p : Nat
deriving DecidableEq

/-- Modelled from the argon2 crate: `derive_key` (vault_store.rs lines
62-76) constructs `Argon2::default()` and passes no explicit parameters,
so the KDF runs with the crate's `Params::DEFAULT` — `m_cost = 19456`
(19 MiB), `t_cost = 2`, `p_cost = 1` in RustCrypto argon2 0.5 (no
released version of the crate defaults to `m = 65536, t = 3, p = 1`). -/
def argon2DefaultParams : Argon2Params where
  m := 19456
  t := 2
  p := 1

/-- The parameter set `derive_key` actually runs with. -/
def deriveKeyParams : Argon2Params := argon2DefaultParams

/-- The parameter set `write_vault_file` hard-codes into the file header
(vault_store.rs lines 113-116: `argon2_m: 65536, argon2_t: 3,
argon2_p: 1`). -/
def vaultHeaderParams : Argon2Params where
  m := 65536
  t := 3
  p := 1

/-- Model of `VaultEntry` (vault_store.rs lines 22-28). -/
structure VaultEntry where
  «alias» : String
  provider : String
  value : String
  created_at : String
deriving DecidableEq

/-- The external cryptography and serialization `vault_store.rs` calls
into: Argon2id key derivation, AES-256-GCM seal/open, serde_json
encode/decode of the entry list. -/
structure Crypto where
  deriveKey : String → List Nat → List Nat
  encrypt : List Nat → List Nat → List Nat → List Nat
  decrypt : List Nat → List Nat → List Nat → Option (List Nat)
  ser : List VaultEntry → List Nat
  deser : List Nat → Option (List VaultEntry)

/-- The on-disk `VaultFile` (vault_store.rs lines 30-43): header (salt,
Argon2 parameters, nonce) and ciphertext. -/
structure VaultFileM where
  salt : List Nat
  params : Argon2Params
  nonce : List Nat
  ciphertext : List Nat
deriving DecidableEq

/-- Model of `VaultState` (vault_store.rs lines 45-49). -/
structure VaultSession where
  entries : List VaultEntry
  derived_key : List Nat
  unlocked : Bool

/-- The vault's world: the sealed file (if any) and the in-memory
session (if unsealed). -/
structure VaultGlobal where
  file : Option VaultFileM
  session : Option VaultSession

/-- Model of `write_vault_file` (vault_store.rs lines 108-126). -/
def write_vault_file (salt nonce ciphertext : List Nat) : VaultFileM :=
  { salt := salt, params := vaultHeaderParams, nonce := nonce, ciphertext := ciphertext }

/-- Model of `vault_create` (vault_store.rs lines 143-162); the random salt and
nonce are arguments. -/
def vault_create (c : Crypto) (passphrase : String) (salt nonce : List Nat)
    (_g : VaultGlobal) : Except String VaultGlobal :=
  if utf8Len passphrase < 12 then
    .error "Passphrase must be at least 12 characters"
  else
    let key := c.deriveKey passphrase salt
    let ciphertext := c.encrypt key nonce (c.ser [])
    .ok { file := some (write_vault_file salt nonce ciphertext)
          session := some { entries := [], derived_key := key, unlocked := true } }

/-- Model of `vault_unlock` (vault_store.rs lines 164-177). -/
def vault_unlock (c : Crypto) (passphrase : String) (g : VaultGlobal) :
    Except String VaultGlobal :=
  match g.file with
  | none => .error "read vault: not found"
  | some f =>
    let key := c.deriveKey passphrase f.salt
    match c.decrypt key f.nonce f.ciphertext with
    | none => .error "Decryption failed. Wrong passphrase?"
    | some plaintext =>
      match c.deser plaintext with
      | none => .error "deserialize"
      | some entries =>
        .ok { g with session := some { entries := entries, derived_key := key, unlocked := true } }

/-- Model of `vault_lock` (vault_store.rs lines 179-185). -/
def vault_lock (g : VaultGlobal) : VaultGlobal :=
  { g with session := none }

/-- Model of `vault_is_unlocked` (vault_store.rs lines 187-190). -/
def vault_is_unlocked (g : VaultGlobal) : Bool :=
  match g.session with
  | some s => s.unlocked
  | none => false

/-- Model of `vault_add_entry` (vault_store.rs lines 192-207): upsert by alias
(`retain` then `push`), re-encrypt under the session key with a fresh
nonce, reuse the salt read back from the file.  (On the error paths Rust
has already mutated the in-memory session; no claim observes that state,
and this model returns the pre-call state with the error.) -/
def vault_add_entry (c : Crypto) (al value provider now : String)
    (nonce : List Nat) (g : VaultGlobal) : Except String VaultGlobal :=
  match g.session with
  | none => .error "Vault is locked"
  | some s =>
    let entries := (s.entries.filter (fun e => e.alias ≠ al))
      ++ [{ «alias» := al, provider := provider, value := value, created_at := now }]
    let ciphertext := c.encrypt s.derived_key nonce (c.ser entries)
    match g.file with
    | none => .error "read vault: not found"
    | some f =>
      .ok { file := some (write_vault_file f.salt nonce ciphertext)
            session := some { s with entries := entries } }

/-- Model of `vault_get_secret` (vault_store.rs lines 236-243). -/
def vault_get_secret (g : VaultGlobal) (al : String) : Except String String :=
  match g.session with
  | none => .error "Vault is locked"
  | some s =>
    match s.entries.find? (fun e => e.alias = al) with
    | some e => .ok e.value
    | none => .error ("No entry with alias '" ++ al ++ "'")


/-! ## C4 — Argon2 parameters -/

/-- A placeholder cipher for evaluating the vault operations at concrete
inputs (identity AEAD, empty KDF output, empty serialization). -/
def trivialCrypto : Crypto where
  deriveKey := fun _ _ => []
  encrypt := fun _ _ plaintext => plaintext
  decrypt := fun _ _ ciphertext => some ciphertext
  ser := fun _ => []
  deser := fun _ => some []

/-- C4: the parameters recorded in the vault header after a `create` are
`m=65536, t=3, p=1`, but they are **not** the parameters `derive_key`
runs with — `derive_key` uses `Argon2::default()` (the crate's defaults),
so the header documents a KDF configuration the code does not use.  The
claim is right about the header and wrong about the derivation. -/
theorem argon2_params_mismatch :
    deriveKeyParams ≠ vaultHeaderParams
    ∧ vaultHeaderParams = { m := 65536, t := 3, p := 1 }
    ∧ ((vault_create trivialCrypto "correct horse battery" [1, 2] [3, 4]
          { file := none, session := none }).toOption.bind
        (fun g => g.file)).map (fun f => f.params) = some vaultHeaderParams := by
  refine ⟨by decide, by decide, by decide⟩

/-! ## C5 — create / add / lock / unlock / get round trip -/

/-- C5: for any correct AEAD (`decrypt ∘ encrypt = id`), deterministic
KDF (any function) and serde round trip on the produced entry list,
`create(P); add_entry(a,v,p); lock(); unlock(P); get_secret(a)` returns
`v`, for every passphrase of byte length ≥ 12, alias, value, provider,
timestamp, salt and nonces. -/
theorem vault_roundtrip (c : Crypto) (pass : String) (salt n1 n2 : List Nat)
    (al v prov now : String)
    (hlen : 12 ≤ utf8Len pass)
    (hdec : ∀ k n pt, c.decrypt k n (c.encrypt k n pt) = some pt)
    (hser : c.deser (c.ser [{ «alias» := al, provider := prov, value := v, created_at := now }])
      = some [{ «alias» := al, provider := prov, value := v, created_at := now }]) :
    (do
      let g1 ← vault_create c pass salt n1 { file := none, session := none }
      let g2 ← vault_add_entry c al v prov now n2 g1
      let g3 := vault_lock g2
      let g4 ← vault_unlock c pass g3
      vault_get_secret g4 al) = .ok v := by
  have hnot : ¬ utf8Len pass < 12 := by omega
  simp only [vault_create, if_neg hnot, vault_add_entry, vault_lock, vault_unlock,
    vault_get_secret, write_vault_file, bind, Except.bind, hdec,
    List.filter_nil, List.nil_append]
  rw [hser]
  simp [List.find?]

/-- A cipher witnessing the hypotheses of the round-trip theorem at the
concrete entry `("k", "prov", "secret", "0")`. -/
def roundCrypto : Crypto where
  deriveKey := fun _ _ => []
  encrypt := fun _ _ plaintext => plaintext
  decrypt := fun _ _ ciphertext => some ciphertext
  ser := fun _ => []
  deser := fun _ => some [{ «alias» := "k", provider := "prov", value := "secret", created_at := "0" }]

/-- Witness for C5 at a concrete passphrase, entry and cipher. -/
theorem vault_roundtrip_witness :
    12 ≤ utf8Len "passphrase123"
    ∧ (do
        let g1 ← vault_create roundCrypto "passphrase123" [7] [8] { file := none, session := none }
        let g2 ← vault_add_entry roundCrypto "k" "secret" "prov" "0" [9] g1
        let g3 := vault_lock g2
        let g4 ← vault_unlock roundCrypto "passphrase123" g3
        vault_get_secret g4 "k") = .ok "secret" := by
  refine ⟨by decide, ?_⟩
  exact vault_roundtrip roundCrypto "passphrase123" [7] [8] [9] "k" "secret" "prov" "0"
    (by decide) (fun _ _ _ => rfl) rfl

/-! ## C7 — entry previews -/

/-- Rust `&s[..n]` on the UTF-8 byte representation: the characters
covering the first `n` bytes, or `none` (a panic) when byte `n` is not a
character boundary or exceeds the length. -/
def takeBytes : List Char → Nat → Option (List Char)
  | _, 0 => some []
  | [], _ + 1 => none
  | ch :: cs, n + 1 =>
    if charUtf8Size ch ≤ n + 1 then
      (takeBytes cs (n + 1 - charUtf8Size ch)).map (fun r => ch :: r)
    else none

/-- Rust `&s[n..]`: the characters after the first `n` bytes, or `none`
(a panic) when byte `n` is not a character boundary. -/
def dropBytes : List Char → Nat → Option (List Char)
  | cs, 0 => some cs
  | [], _ + 1 => none
  | ch :: cs, n + 1 =>
    if charUtf8Size ch ≤ n + 1 then dropBytes cs (n + 1 - charUtf8Size ch) else none

/-- The preview `vault_list_entries` computes (vault_store.rs lines
222-226): `format!("{}...{}", &value[..3], &value[len-3..])` when the
byte length exceeds 6, else `"****"`.  The slices are byte slices; a
boundary that splits a multi-byte character panics (`none`). -/
def previewOf (value : String) : Option String :=
  if utf8Len value > 6 then
    match takeBytes value.data 3, dropBytes value.data (utf8Len value - 3) with
    | some pre, some suf => some (String.mk (pre ++ "...".data ++ suf))
    | _, _ => none
  else some "****"

/-- Model of `VaultEntryInfo` (vault_store.rs lines 209-215). -/
structure VaultEntryInfo where
  «alias» : String
  provider : String
  preview : String
  created_at : String
deriving DecidableEq

def entryInfo (e : VaultEntry) : Option VaultEntryInfo :=
  (previewOf e.value).map (fun pv =>
    { «alias» := e.alias, provider := e.provider, preview := pv, created_at := e.created_at })

/-- Model of `vault_list_entries` (vault_store.rs lines 217-234); the inner
`Option` is `none` when the preview computation panics on some entry. -/
def vault_list_entries (g : VaultGlobal) : Except String (Option (List VaultEntryInfo)) :=
  match g.session with
  | none => .error "Vault is locked"
  | some s => .ok (s.entries.mapM entryInfo)

/-- C7: the preview is computed on *bytes*, not characters, and panics on
values whose byte 3 or byte len−3 is not a character boundary: five
Cyrillic `а`s (10 bytes) panic; `日本語テスト` (18 bytes) yields
`日...ト` — one character on each side, not three; `vault_list_entries`
on a vault holding such a value panics; on ASCII values the preview is as
the claim describes. -/
theorem preview_byte_slicing_bug :
    previewOf "ааааа" = none
    ∧ previewOf "日本語テスト" = some "日...ト"
    ∧ vault_list_entries
        { file := none
          session := some
            { entries := [{ «alias» := "a", provider := "p", value := "ааааа", created_at := "0" }]
              derived_key := []
              unlocked := true } }
      = .ok none
    ∧ previewOf "abcdefgh" = some "abc...fgh"
    ∧ previewOf "abc" = some "****" := by
  refine ⟨by decide, by decide, by rfl, by decide, by decide⟩

end Vault0
